import Mathlib

/-!
A shallow embedding of the PostgreSQL database layer of libfutil
(src/db/db_psql.c): the query template compilation performed inside
db_query, the two-attempt execute and reconnect loop, the db_connect retry
policy, db_query_finish, and the typed result accessors.

External collaborators (the libpq client library and the threading layer)
are modelled as oracles: functions passed as parameters that decide the
outcome of PQconnectdb (tc), thread_keep_running (kr) and PQexecParams
(send).  Machine integers are Nat with explicit reductions mod 2 ^ 32 and
2 ^ 64.  The bounded scratch buffer db.q (its capacity is a constant of the
header db.h, which is not part of the sources, so it stays a parameter
qcap) is modelled as the list of characters kept in it so far together with
an out-of-bounds flag oob that records whether any write landed at an
offset at or beyond qcap.
-/

/-- PostgreSQL type identifiers used by the source (kept in db_psql.h). -/
inductive Oid where
  | INT4OID
  | INT8OID
  | TEXTOID
  | VARCHAROID
  | BOOLOID
  | INETOID
  | CIDROID
  | otherOid (n : Nat)
  deriving DecidableEq

/-- A typed variadic argument of db_query.  The C source reads the va_list
according to the directive letter; the closed set of shapes is the one the
directives accept. -/
inductive Arg where
  | aU32 (x : Nat)
  | aU64 (x : Nat)
  | aStr (s : String)
  | aAddr (s : String)
  | aBlock (s : String)
  | aRaw (s : String)
  | aTyp (s : String)
  deriving DecidableEq

/-- The value slot vals[v]: either a pointer to the big-endian bytes of a
fixed-width integer (t32 or t64 scratch arrays) or a pointer to a
null-terminated text string. -/
inductive PVal where
  | bin (bs : List Nat)
  | str (s : String)
  deriving DecidableEq

/-- One bound parameter: the parallel entries typs[v], vals[v], lens[v] and
fmts[v] that db_query hands to PQexecParams. -/
structure Param where
  typ : Oid
  val : PVal
  len : Nat
  fmt : Nat
  deriving DecidableEq

/-- Outcome of the template compilation phase of db_query (lines 183-366):
whether rep was still DB_R_OK when the scan stopped, the null-terminated
text left in db.q, the parameter arrays, the final count v, and whether any
write went out of bounds. -/
structure CompileRes where
  ok : Bool
  sql : List Char
  params : List Param
  nParams : Nat
  oob : Bool
  deriving DecidableEq

/-- The dbreply_t values of the source. -/
inductive DbReply where
  | DB_R_OK
  | DB_R_ERR
  | DB_R_DUPLICATE_KEY
  deriving DecidableEq

/-- Relevant PQresultStatus values: the two success statuses, the fatal
error status, and every other status collapsed into one constructor. -/
inductive PGStatus where
  | PGRES_COMMAND_OK
  | PGRES_TUPLES_OK
  | PGRES_FATAL_ERROR
  | PGRES_OTHER
  deriving DecidableEq

/-- Outcome of one PQexecParams call: either no result object at all
(transport failure) or a result with a status and an optional SQLSTATE
error field. -/
inductive ExecOutcome where
  | noResult
  | result (est : PGStatus) (sqlstate : Option String)
  deriving DecidableEq

/-- Which return statement of db_query fired. -/
inductive ExitKind where
  | abortReused
  | compileFail
  | noConnection
  | loopDone
  deriving DecidableEq

/-- Mutable state of the execute and retry loop of db_query: the connection
handle (none or live), the running count of PQconnectdb attempts, the
number of PQexecParams calls made, whether result.res is non-null, and the
current rep value. -/
structure LoopSt where
  conn : Bool
  cAtt : Nat
  sends : Nat
  resLive : Bool
  rep : DbReply
  deriving DecidableEq

/-- Full observable outcome of one db_query call. -/
structure QueryRes where
  exitKind : ExitKind
  rep : DbReply
  sends : Nat
  resLive : Bool
  conn : Bool
  cAtt : Nat
  sql : List Char
  params : List Param
  nParams : Nat
  oob : Bool
  deriving DecidableEq

/-- A finished libpq result, abstracted to the two introspection calls the
positional accessors use: PQgetvalue (none models a NULL pointer) and
PQftype. -/
structure DbResult where
  getval : Nat → Nat → Option (List Nat)
  ftype : Nat → Oid

/-- DB_MAX_PARAMS of the source. -/
def DB_MAX_PARAMS : Nat := 16

/-- ERRCODE_UNIQUE_VIOLATION of the source. -/
def ERRCODE_UNIQUE_VIOLATION : String := "23505"

/-- Memory image of htonl x: the four big-endian bytes of x mod 2 ^ 32. -/
def u32be (x : Nat) : List Nat :=
  [x / 2 ^ 24 % 256, x / 2 ^ 16 % 256, x / 2 ^ 8 % 256, x % 256]

/-- Memory image of htonll x: the eight big-endian bytes of x mod 2 ^ 64. -/
def u64be (x : Nat) : List Nat :=
  [x / 2 ^ 56 % 256, x / 2 ^ 48 % 256, x / 2 ^ 40 % 256, x / 2 ^ 32 % 256,
   x / 2 ^ 24 % 256, x / 2 ^ 16 % 256, x / 2 ^ 8 % 256, x % 256]

/-- Text produced by snprintf with format "$%u" for the positional
placeholder number v. -/
def placeholder (v : Nat) : List Char := '$' :: (Nat.repr v).data

/-- Text produced by snprintf with format "'%s'" (directive %t). -/
def quoted (s : String) : List Char := '\'' :: (s.data ++ ['\''])

/-- The C expression sizeof(db.q) - o evaluated as a 64 bit size_t: it
wraps around when o exceeds the capacity. -/
def sizeSub (qcap o : Nat) : Nat :=
  if o ≤ qcap then qcap - o else 2 ^ 64 - (o - qcap)

/-- One snprintf call writing text s into the buffer at offset q.length
with size argument sizeof(db.q) - o.  Some (new content, new oob flag) when
snprintfok accepts the return value (s plus its terminator fit in the size
argument); none when it does not, in which case the source flags DB_R_ERR
and stops, and the buffer keeps the old content q up to its terminator.
The terminator written at offset q.length + s.length is overwritten by the
next copy, so on success the kept content is exactly q ++ s. -/
def emitStr (qcap : Nat) (q : List Char) (oob : Bool) (s : List Char) :
    Option (List Char × Bool) :=
  if s.length < sizeSub qcap q.length then
    some (q ++ s, oob || decide (qcap ≤ q.length + s.length))
  else none

/-- One arm of the directive switch of db_query (lines 202-353): given the
letter after the percent sign and the remaining va_list, the action taken
and the remaining arguments.  Bound directives consume one argument and
produce the parameter entry stored at index v; the two inline directives
consume one argument and produce the text spliced into the SQL; a letter
the switch does not know is the default arm (rep = DB_R_ERR); a known
letter whose va_list argument does not have the matching shape is
undefined behavior in the source. -/
inductive DirAct where
  | bound (p : Param)
  | inl (s : List Char)
  | badDir
  | ub
  deriving DecidableEq

def dirAct (d : Char) (args : List Arg) : DirAct × List Arg :=
  match d, args with
  | 'a', Arg.aAddr s :: args2 =>
      (DirAct.bound ⟨Oid.INETOID, PVal.str s, 0, 0⟩, args2)
  | 'b', Arg.aBlock s :: args2 =>
      (DirAct.bound ⟨Oid.CIDROID, PVal.str s, 0, 0⟩, args2)
  | 'u', Arg.aU32 x :: args2 =>
      (DirAct.bound ⟨Oid.INT4OID, PVal.bin (u32be x), 4, 1⟩, args2)
  | 'U', Arg.aU64 x :: args2 =>
      (DirAct.bound ⟨Oid.INT8OID, PVal.bin (u64be x), 8, 1⟩, args2)
  | 'S', Arg.aStr s :: args2 =>
      (DirAct.bound ⟨Oid.TEXTOID, PVal.str s, 0, 0⟩, args2)
  | 's', Arg.aRaw s :: args2 => (DirAct.inl s.data, args2)
  | 't', Arg.aTyp s :: args2 => (DirAct.inl (quoted s), args2)
  | d, args =>
      if d = 'a' || d = 'b' || d = 'u' || d = 'U' || d = 'S' ||
         d = 's' || d = 't' then
        (DirAct.ub, args)
      else (DirAct.badDir, args)

/-- The template scan of db_query (lines 183-359).  One call per remaining
template suffix; q, ps, v, oob carry the loop state o (as q.length), the
parameter arrays, the bound-parameter count and the out-of-bounds flag.
Literal characters are copied with no capacity check (db.q[o++] = txt[i]),
which is recorded in oob; when the directive count reaches DB_MAX_PARAMS
the source logs and breaks out of the scan with rep still DB_R_OK; a
percent sign as the last character and a directive letter the switch does
not know set rep = DB_R_ERR; a mismatched or exhausted va_list is
undefined behavior in the source and gives none here.  The nil case and
every early stop perform the final db.q[o] = 0 store, again with no
capacity check. -/
def compileLoop (qcap : Nat) :
    List Char → List Arg → List Char → List Param → Nat → Bool →
    Option CompileRes
  | [], _, q, ps, v, oob =>
      some ⟨true, q, ps, v, oob || decide (qcap ≤ q.length)⟩
  | c :: rest, args, q, ps, v, oob =>
    if c = '%' then
      if DB_MAX_PARAMS ≤ v then
        some ⟨true, q, ps, v, oob || decide (qcap ≤ q.length)⟩
      else
        match rest with
        | [] =>
            some ⟨false, q, ps, v, oob || decide (qcap ≤ q.length)⟩
        | d :: rest2 =>
          match dirAct d args with
          | (DirAct.bound p, args2) =>
              match emitStr qcap q oob (placeholder (v + 1)) with
              | some qo => compileLoop qcap rest2 args2 qo.1
                  (ps ++ [p]) (v + 1) qo.2
              | none => some ⟨false, q, ps ++ [p], v + 1,
                  oob || decide (qcap ≤ q.length)⟩
          | (DirAct.inl s, args2) =>
              match emitStr qcap q oob s with
              | some qo => compileLoop qcap rest2 args2 qo.1 ps v qo.2
              | none => some ⟨false, q, ps, v,
                  oob || decide (qcap ≤ q.length)⟩
          | (DirAct.badDir, _) =>
              some ⟨false, q, ps, v, oob || decide (qcap ≤ q.length)⟩
          | (DirAct.ub, _) => none
    else
      compileLoop qcap rest args (q ++ [c]) ps v
        (oob || decide (qcap ≤ q.length))

/-- Template compilation phase of db_query, started on an empty scratch
buffer with v = 0 and rep = DB_R_OK. -/
def db_compile (qcap : Nat) (txt : List Char) (args : List Arg) :
    Option CompileRes :=
  compileLoop qcap txt args [] [] 0 false

/-- Modelled from the spec (section 4.1 directive table): the parameter a
bound directive letter appends, with its type tag, wire bytes, length and
binary flag. -/
def dirParam (d : Char) (a : Arg) : Option Param :=
  if d = 'u' then
    match a with
    | Arg.aU32 x => some ⟨Oid.INT4OID, PVal.bin (u32be x), 4, 1⟩
    | _ => none
  else if d = 'U' then
    match a with
    | Arg.aU64 x => some ⟨Oid.INT8OID, PVal.bin (u64be x), 8, 1⟩
    | _ => none
  else if d = 'S' then
    match a with
    | Arg.aStr s => some ⟨Oid.TEXTOID, PVal.str s, 0, 0⟩
    | _ => none
  else if d = 'a' then
    match a with
    | Arg.aAddr s => some ⟨Oid.INETOID, PVal.str s, 0, 0⟩
    | _ => none
  else if d = 'b' then
    match a with
    | Arg.aBlock s => some ⟨Oid.CIDROID, PVal.str s, 0, 0⟩
    | _ => none
  else none

/-- Modelled from the spec (section 4.1 directive table): the text an
inline directive letter splices directly into the SQL. -/
def dirInline (d : Char) (a : Arg) : Option (List Char) :=
  if d = 's' then
    match a with
    | Arg.aRaw s => some s.data
    | _ => none
  else if d = 't' then
    match a with
    | Arg.aTyp s => some (quoted s)
    | _ => none
  else none

/-- Modelled from the spec (sections 4.1 and 8): the intended rendering of
a template.  Literal text is kept, the i-th bound directive becomes the
positional placeholder for i and appends its parameter in order, inline
directives splice their text, the argument list must match the directives
exactly, and the parameter-capacity bound DB_MAX_PARAMS is enforced at
every directive.  This is the reference against which the compilation of
the source is checked. -/
def specCompile : List Char → List Arg → Nat →
    Option (List Char × List Param)
  | [], args, _ => if args = [] then some ([], []) else none
  | c :: rest, args, v =>
    if c = '%' then
      match rest with
      | [] => none
      | d :: rest2 =>
        match args with
        | [] => none
        | a :: args2 =>
          if v < DB_MAX_PARAMS then
            match dirParam d a with
            | some p => (specCompile rest2 args2 (v + 1)).map
                (fun r => (placeholder (v + 1) ++ r.1, p :: r.2))
            | none =>
              match dirInline d a with
              | some s => (specCompile rest2 args2 v).map
                  (fun r => (s ++ r.1, r.2))
              | none => none
          else none
    else
      (specCompile rest args v).map (fun r => (c :: r.1, r.2))

/-- The retry loop of db_connect (lines 850-866).  i is the loop counter
against max = 3, a is the running count of PQconnectdb attempts used to
index the tc and kr oracles, and fuel bounds the recursion (the keeptrying
mode is unbounded in the source; any fuel of at least 3 makes the model
exact in the bounded mode).  Returns whether db.conn is set and the new
attempt count. -/
def db_connectGo (kt : Bool) (tc kr : Nat → Bool) :
    Nat → Nat → Nat → Bool × Nat
  | 0, _, a => (false, a)
  | fuel + 1, i, a =>
    if kt = true ∨ i < 3 then
      if tc a then (true, a + 1)
      else if kr a = false then (false, a + 1)
      else db_connectGo kt tc kr fuel (i + 1) (a + 1)
    else (false, a)

/-- db_connect of the source: run the retry loop from i = 0. -/
def db_connect (kt : Bool) (tc kr : Nat → Bool) (cfuel a : Nat) :
    Bool × Nat :=
  db_connectGo kt tc kr cfuel 0 a

/-- The execute and retry loop of db_query (lines 368-442), counted down
from 2 remaining iterations.  Each iteration reconnects when db.conn is
null, fails out with the No-connection return when that does not help,
sends once, and classifies the outcome exactly as the source does:
transport failure drops the connection and retries; a result with a
success status returns DB_R_OK; otherwise the SQLSTATE field selects
DB_R_DUPLICATE_KEY for ERRCODE_UNIQUE_VIOLATION and DB_R_ERR for anything
else, and only a fatal status with no SQLSTATE drops the connection and
retries. -/
def queryLoop (kt : Bool) (tc kr : Nat → Bool) (cfuel : Nat)
    (send : Nat → ExecOutcome) : Nat → LoopSt → ExitKind × LoopSt
  | 0, st => (ExitKind.loopDone, st)
  | n + 1, st =>
    let ca := if st.conn then (true, st.cAtt)
              else db_connect kt tc kr cfuel st.cAtt
    if ca.1 = false then
      (ExitKind.noConnection, ⟨false, ca.2, st.sends, st.resLive, st.rep⟩)
    else
      match send st.sends with
      | ExecOutcome.noResult =>
          queryLoop kt tc kr cfuel send n
            ⟨false, ca.2, st.sends + 1, false, DbReply.DB_R_ERR⟩
      | ExecOutcome.result est r =>
          if est = PGStatus.PGRES_COMMAND_OK ∨ est = PGStatus.PGRES_TUPLES_OK
          then
            (ExitKind.loopDone,
             ⟨true, ca.2, st.sends + 1, true, DbReply.DB_R_OK⟩)
          else
            let rep1 := if r = some ERRCODE_UNIQUE_VIOLATION then
                DbReply.DB_R_DUPLICATE_KEY
              else DbReply.DB_R_ERR
            if est = PGStatus.PGRES_FATAL_ERROR ∧ r = none then
              queryLoop kt tc kr cfuel send n
                ⟨false, ca.2, st.sends + 1, true, rep1⟩
            else
              (ExitKind.loopDone, ⟨true, ca.2, st.sends + 1, true, rep1⟩)

/-- db_query of the source.  resLive0 is whether the caller passed a result
whose res pointer is still set: the source then logs and calls abort(),
which the spec surfaces as the protocol-violation outcome; the model
records it as the abortReused exit taken before any compilation or
sending.  Otherwise the template is compiled (none when compilation runs
into C undefined behavior), a failed compilation returns DB_R_ERR without
touching the network, and an ok compilation runs the execute loop for at
most 2 iterations. -/
def db_query (qcap : Nat) (resLive0 conn0 kt : Bool)
    (txt : List Char) (args : List Arg) (tc kr : Nat → Bool) (cfuel : Nat)
    (send : Nat → ExecOutcome) : Option QueryRes :=
  if resLive0 then
    some ⟨ExitKind.abortReused, DbReply.DB_R_ERR, 0, true, conn0, 0,
          [], [], 0, false⟩
  else
    match db_compile qcap txt args with
    | none => none
    | some c =>
      if c.ok = false then
        some ⟨ExitKind.compileFail, DbReply.DB_R_ERR, 0, false, conn0, 0,
              c.sql, c.params, c.nParams, c.oob⟩
      else
        let r := queryLoop kt tc kr cfuel send 2
          ⟨conn0, 0, 0, false, DbReply.DB_R_OK⟩
        some ⟨r.1,
              if r.1 = ExitKind.noConnection then DbReply.DB_R_ERR
              else r.2.rep,
              r.2.sends, r.2.resLive, r.2.conn, r.2.cAtt,
              c.sql, c.params, c.nParams, c.oob⟩

/-- db_query_finish of the source, acting on the scratch buffer content,
the mutex flag and the result argument (none models a NULL result pointer,
some b models a result whose res pointer is live iff b).  Returns the new
buffer content, the new mutex flag and the new result state. -/
def db_query_finish (q : List Char) (_locked : Bool) (result : Option Bool) :
    List Char × Bool × Option Bool :=
  if result = some true then ([], false, some false)
  else (q, false, result)

/-- Big-endian value of a byte list, as produced by ntohl and ntohll on the
raw cell bytes. -/
def beNat (bs : List Nat) : Nat :=
  bs.foldl (fun acc b => acc * 256 + b % 256) 0

/-- db_result_get_uint32.  The outer none models the undefined behavior of
reading past the end of the cell; otherwise the pair is (returned bool,
value stored through the out pointer, none when the source leaves it
untouched).  Failed asserts compile to no-ops here (NDEBUG), which is the
DecodeError surface of the spec. -/
def db_result_get_uint32 (r : DbResult) (row col : Nat) :
    Option (Bool × Option Nat) :=
  match r.getval row col with
  | none => some (false, none)
  | some d =>
    match r.ftype col with
    | Oid.INT4OID =>
        if 4 ≤ d.length then some (true, some (beNat (d.take 4))) else none
    | Oid.INT8OID =>
        if 8 ≤ d.length then some (true, some (beNat (d.take 8) % 2 ^ 32))
        else none
    | _ => some (false, some 0)

/-- db_result_get_uint64, same conventions as db_result_get_uint32.  In the
INT4OID case the uint32 produced by ntohl is widened to the uint64 out
value, so the high 32 bits are zero. -/
def db_result_get_uint64 (r : DbResult) (row col : Nat) :
    Option (Bool × Option Nat) :=
  match r.getval row col with
  | none => some (false, none)
  | some d =>
    match r.ftype col with
    | Oid.INT4OID =>
        if 4 ≤ d.length then some (true, some (beNat (d.take 4))) else none
    | Oid.INT8OID =>
        if 8 ≤ d.length then some (true, some (beNat (d.take 8))) else none
    | _ => some (false, some 0)

/-- db_result_get_string: the pair is (returned bool, out pointer state),
where the inner layer distinguishes not written (none), written NULL
(some none) and written a pointer to the cell text (some (some bytes)). -/
def db_result_get_string (r : DbResult) (row col : Nat) :
    Bool × Option (Option (List Nat)) :=
  match r.getval row col with
  | none => (false, none)
  | some d =>
    match r.ftype col with
    | Oid.TEXTOID => (true, some (some d))
    | Oid.VARCHAROID => (true, some (some d))
    | _ => (false, some none)

/-- db_result_get_bool: reads one byte of the cell when the column type is
BOOLOID (outer none models the read when the cell is empty), otherwise
stores false and returns false. -/
def db_result_get_bool (r : DbResult) (row col : Nat) :
    Option (Bool × Option Bool) :=
  match r.getval row col with
  | none => some (false, none)
  | some d =>
    match r.ftype col with
    | Oid.BOOLOID =>
        match d with
        | b :: _ => some (true, some (decide (b ≠ 0)))
        | [] => none
    | _ => some (false, some false)

/-- Oracle fixtures used by concrete instantiations. -/
def tcTrue : Nat → Bool := fun _ => true

def tcFalse : Nat → Bool := fun _ => false

def krTrue : Nat → Bool := fun _ => true

def sendOk : Nat → ExecOutcome :=
  fun _ => ExecOutcome.result PGStatus.PGRES_COMMAND_OK none

def sendFail : Nat → ExecOutcome := fun _ => ExecOutcome.noResult

def sendFailOk : Nat → ExecOutcome :=
  fun n => if n = 0 then ExecOutcome.noResult
           else ExecOutcome.result PGStatus.PGRES_TUPLES_OK none

def sendDup : Nat → ExecOutcome :=
  fun _ => ExecOutcome.result PGStatus.PGRES_FATAL_ERROR (some "23505")

def sendSyn : Nat → ExecOutcome :=
  fun _ => ExecOutcome.result PGStatus.PGRES_OTHER (some "42601")

/-- A result holding one INT8OID cell with the big-endian bytes of 7. -/
def R8 : DbResult :=
  ⟨fun _ _ => some [0, 0, 0, 0, 0, 0, 0, 7], fun _ => Oid.INT8OID⟩

/-- A result holding one INT4OID cell with the big-endian bytes of 7. -/
def R4 : DbResult :=
  ⟨fun _ _ => some [0, 0, 0, 7], fun _ => Oid.INT4OID⟩

/-- A result holding one INT4OID cell, used to probe the mismatched
accessors. -/
def Rm : DbResult :=
  ⟨fun _ _ => some [1, 2, 3, 4], fun _ => Oid.INT4OID⟩

/-- Template with 17 bound directives, one past DB_MAX_PARAMS. -/
def c1txt : List Char := (List.replicate 17 ['%', 'u']).flatten

def c1args : List Arg := List.replicate 17 (Arg.aU32 1)

/-- The text db_query actually sends for c1txt: the statement truncated to
the first 16 placeholders. -/
def c1sql : List Char := "$1$2$3$4$5$6$7$8$9$10$11$12$13$14$15$16".data

def c1params : List Param :=
  List.replicate 16 ⟨Oid.INT4OID, PVal.bin (u32be 1), 4, 1⟩

/-- The scenario template of the spec. -/
def c4txt : List Char := "SELECT id FROM t WHERE gw=%u AND name=%S".data

def c4args : List Arg := [Arg.aU32 7, Arg.aStr "alice"]

def c4sql : List Char := "SELECT id FROM t WHERE gw=$1 AND name=$2".data

def c4p1 : Param := ⟨Oid.INT4OID, PVal.bin [0, 0, 0, 7], 4, 1⟩

def c4p2 : Param := ⟨Oid.TEXTOID, PVal.str "alice", 0, 0⟩

/-- A plain query text with no directives, used by concrete runs of the
execute loop. -/
def cSel : List Char := "SELECT 1".data

def cSelRes : CompileRes := ⟨true, cSel, [], 0, false⟩

/-! Helper lemmas. -/

lemma emitStr_ok {qcap : Nat} {q s : List Char}
    (h : q.length + s.length < qcap) :
    emitStr qcap q false s = some (q ++ s, false) := by
  have h1 : q.length ≤ qcap := by omega
  unfold emitStr sizeSub
  rw [if_pos h1, if_pos (by omega)]
  rw [Bool.false_or, decide_eq_false (by omega : ¬ qcap ≤ q.length + s.length)]

lemma compileLoop_nil {qcap : Nat} {args : List Arg} {q : List Char}
    {ps : List Param} {v : Nat} {oob : Bool} :
    compileLoop qcap [] args q ps v oob =
      some ⟨true, q, ps, v, oob || decide (qcap ≤ q.length)⟩ := by
  rw [compileLoop.eq_def]

lemma compileLoop_lit {qcap : Nat} {c : Char} {rest : List Char}
    {args : List Arg} {q : List Char} {ps : List Param} {v : Nat} {oob : Bool}
    (hc : ¬ (c = '%')) :
    compileLoop qcap (c :: rest) args q ps v oob =
      compileLoop qcap rest args (q ++ [c]) ps v
        (oob || decide (qcap ≤ q.length)) := by
  rw [compileLoop.eq_def]
  simp only [if_neg hc]

lemma compileLoop_break {qcap : Nat} {rest : List Char} {args : List Arg}
    {q : List Char} {ps : List Param} {v : Nat} {oob : Bool}
    (hv : DB_MAX_PARAMS ≤ v) :
    compileLoop qcap ('%' :: rest) args q ps v oob =
      some ⟨true, q, ps, v, oob || decide (qcap ≤ q.length)⟩ := by
  rw [compileLoop.eq_def]
  simp only [if_pos rfl, if_true, if_pos hv]

lemma compileLoop_bound_step {qcap : Nat} {d : Char} {rest : List Char}
    {args args2 : List Arg} {p : Param} {q : List Char} {ps : List Param}
    {v : Nat} (hd : dirAct d args = (DirAct.bound p, args2))
    (hv : v < DB_MAX_PARAMS)
    (hcap : q.length + (placeholder (v + 1)).length < qcap) :
    compileLoop qcap ('%' :: d :: rest) args q ps v false =
      compileLoop qcap rest args2 (q ++ placeholder (v + 1))
        (ps ++ [p]) (v + 1) false := by
  rw [compileLoop.eq_def]
  simp only [if_pos rfl, if_true, if_neg (by omega : ¬ DB_MAX_PARAMS ≤ v), hd,
    emitStr_ok hcap]

lemma compileLoop_inl_step {qcap : Nat} {d : Char} {rest : List Char}
    {args args2 : List Arg} {s : List Char} {q : List Char} {ps : List Param}
    {v : Nat} (hd : dirAct d args = (DirAct.inl s, args2))
    (hv : v < DB_MAX_PARAMS)
    (hcap : q.length + s.length < qcap) :
    compileLoop qcap ('%' :: d :: rest) args q ps v false =
      compileLoop qcap rest args2 (q ++ s) ps v false := by
  rw [compileLoop.eq_def]
  simp only [if_pos rfl, if_true, if_neg (by omega : ¬ DB_MAX_PARAMS ≤ v), hd,
    emitStr_ok hcap]

lemma compileLoop_u_step {qcap : Nat} {rest : List Char} {args : List Arg}
    {q : List Char} {ps : List Param} {v x : Nat}
    (hv : v < DB_MAX_PARAMS)
    (hcap : q.length + (placeholder (v + 1)).length < qcap) :
    compileLoop qcap ('%' :: 'u' :: rest) (Arg.aU32 x :: args) q ps v false =
      compileLoop qcap rest args (q ++ placeholder (v + 1))
        (ps ++ [⟨Oid.INT4OID, PVal.bin (u32be x), 4, 1⟩]) (v + 1) false :=
  compileLoop_bound_step rfl hv hcap

lemma compileLoop_lit_run (qcap : Nat) :
    ∀ (n : Nat) (q : List Char) (ps : List Param) (v : Nat) (oob : Bool),
      compileLoop qcap (List.replicate n 'A') [] q ps v oob =
        some ⟨true, q ++ List.replicate n 'A', ps, v,
              oob || decide (qcap ≤ q.length + n)⟩ := by
  intro n
  induction n with
  | zero =>
      intro q ps v oob
      simp [compileLoop]
  | succ m ih =>
      intro q ps v oob
      rw [List.replicate_succ]
      have hA : ¬ (('A' : Char) = '%') := by decide
      rw [show compileLoop qcap ('A' :: List.replicate m 'A') [] q ps v oob =
            compileLoop qcap (List.replicate m 'A') [] (q ++ ['A']) ps v
              (oob || decide (qcap ≤ q.length)) by
        rw [compileLoop.eq_def]
        simp only [if_neg hA]]
      rw [ih]
      have hd : ((oob || decide (qcap ≤ q.length)) ||
          decide (qcap ≤ (q ++ ['A']).length + m)) =
          (oob || decide (qcap ≤ q.length + (m + 1))) := by
        rw [Bool.or_assoc]
        congr 1
        by_cases h : qcap ≤ q.length
        · rw [decide_eq_true h, Bool.true_or,
            decide_eq_true (by omega : qcap ≤ q.length + (m + 1))]
        · rw [decide_eq_false h, Bool.false_or]
          exact decide_eq_decide.mpr (by simp; omega)
      rw [hd]
      simp

lemma beNat_foldl_lt (bs : List Nat) :
    ∀ a : Nat, List.foldl (fun acc b => acc * 256 + b % 256) a bs <
      (a + 1) * 256 ^ bs.length := by
  induction bs with
  | nil =>
      intro a
      simp only [List.foldl_nil, List.length_nil, pow_zero, Nat.mul_one]
      omega
  | cons b bs ih =>
      intro a
      simp only [List.foldl_cons, List.length_cons]
      have h1 := ih (a * 256 + b % 256)
      have h2 : (a * 256 + b % 256 + 1) * 256 ^ bs.length ≤
          (a + 1) * 256 ^ (bs.length + 1) := by
        have hb : b % 256 < 256 := Nat.mod_lt _ (by norm_num)
        have h3 : a * 256 + b % 256 + 1 ≤ (a + 1) * 256 := by nlinarith
        calc (a * 256 + b % 256 + 1) * 256 ^ bs.length
            ≤ ((a + 1) * 256) * 256 ^ bs.length :=
              Nat.mul_le_mul_right _ h3
          _ = (a + 1) * 256 ^ (bs.length + 1) := by ring
      omega

lemma beNat_lt (bs : List Nat) : beNat bs < 256 ^ bs.length := by
  have h := beNat_foldl_lt bs 0
  simpa [beNat] using h

lemma queryLoop_zero {kt : Bool} {tc kr : Nat → Bool} {cfuel : Nat}
    {send : Nat → ExecOutcome} {st : LoopSt} :
    queryLoop kt tc kr cfuel send 0 st = (ExitKind.loopDone, st) := rfl

lemma queryLoop_succ_conn_noResult {kt : Bool} {tc kr : Nat → Bool}
    {cfuel : Nat} {send : Nat → ExecOutcome} {n : Nat} {st : LoopSt}
    (hc : st.conn = true) (hs : send st.sends = ExecOutcome.noResult) :
    queryLoop kt tc kr cfuel send (n + 1) st =
      queryLoop kt tc kr cfuel send n
        ⟨false, st.cAtt, st.sends + 1, false, DbReply.DB_R_ERR⟩ := by
  rw [queryLoop.eq_def]
  simp only [hc, if_pos rfl, if_true, Bool.true_eq_false, if_false, hs]

lemma queryLoop_succ_conn_result {kt : Bool} {tc kr : Nat → Bool}
    {cfuel : Nat} {send : Nat → ExecOutcome} {n : Nat} {st : LoopSt}
    {est : PGStatus} {r : Option String}
    (hc : st.conn = true) (hs : send st.sends = ExecOutcome.result est r)
    (hok : est = PGStatus.PGRES_COMMAND_OK ∨ est = PGStatus.PGRES_TUPLES_OK) :
    queryLoop kt tc kr cfuel send (n + 1) st =
      (ExitKind.loopDone,
       ⟨true, st.cAtt, st.sends + 1, true, DbReply.DB_R_OK⟩) := by
  rw [queryLoop.eq_def]
  simp only [hc, if_pos rfl, if_true, Bool.true_eq_false, if_false, hs, if_pos hok]

lemma queryLoop_succ_conn_result_stop {kt : Bool} {tc kr : Nat → Bool}
    {cfuel : Nat} {send : Nat → ExecOutcome} {n : Nat} {st : LoopSt}
    {est : PGStatus} {r : Option String}
    (hc : st.conn = true) (hs : send st.sends = ExecOutcome.result est r)
    (hno : ¬ (est = PGStatus.PGRES_COMMAND_OK ∨
              est = PGStatus.PGRES_TUPLES_OK))
    (hnr : ¬ (est = PGStatus.PGRES_FATAL_ERROR ∧ r = none)) :
    queryLoop kt tc kr cfuel send (n + 1) st =
      (ExitKind.loopDone,
       ⟨true, st.cAtt, st.sends + 1, true,
        if r = some ERRCODE_UNIQUE_VIOLATION then DbReply.DB_R_DUPLICATE_KEY
        else DbReply.DB_R_ERR⟩) := by
  rw [queryLoop.eq_def]
  simp only [hc, if_pos rfl, if_true, Bool.true_eq_false, if_false, hs,
    if_neg hno, if_neg hnr]

lemma queryLoop_succ_reconnect {kt : Bool} {tc kr : Nat → Bool}
    {cfuel : Nat} {send : Nat → ExecOutcome} {n : Nat} {st : LoopSt}
    {a2 : Nat} (hc : st.conn = false)
    (hdb : db_connect kt tc kr cfuel st.cAtt = (true, a2)) :
    queryLoop kt tc kr cfuel send (n + 1) st =
      queryLoop kt tc kr cfuel send (n + 1)
        ⟨true, a2, st.sends, st.resLive, st.rep⟩ := by
  rw [queryLoop.eq_def]
  rw [show queryLoop kt tc kr cfuel send (n + 1)
      ⟨true, a2, st.sends, st.resLive, st.rep⟩ =
      queryLoop kt tc kr cfuel send (n + 1)
        ⟨true, a2, st.sends, st.resLive, st.rep⟩ from rfl]
  conv_rhs => rw [queryLoop.eq_def]
  simp only [hc, hdb, Bool.false_eq_true, if_false, if_pos rfl, if_true]

lemma queryLoop_succ_noconn {kt : Bool} {tc kr : Nat → Bool}
    {cfuel : Nat} {send : Nat → ExecOutcome} {n : Nat} {st : LoopSt}
    {a2 : Nat} (hc : st.conn = false)
    (hdb : db_connect kt tc kr cfuel st.cAtt = (false, a2)) :
    queryLoop kt tc kr cfuel send (n + 1) st =
      (ExitKind.noConnection,
       ⟨false, a2, st.sends, st.resLive, st.rep⟩) := by
  rw [queryLoop.eq_def]
  simp only [hc, hdb, Bool.false_eq_true, if_false, if_pos rfl, if_true]

lemma db_connect_first_try {kt : Bool} {tc kr : Nat → Bool} {cf a : Nat}
    (h : tc a = true) :
    db_connect kt tc kr (cf + 1) a = (true, a + 1) := by
  unfold db_connect
  rw [db_connectGo.eq_def]
  simp only [if_pos (Or.inr (by omega : (0 : Nat) < 3)), h, if_pos rfl,
    if_true]

lemma db_connectGo_allFail (tc kr : Nat → Bool) (htc : ∀ k, tc k = false) :
    ∀ (fuel i a : Nat), i ≤ 3 →
      (db_connectGo false tc kr fuel i a).1 = false ∧
      (db_connectGo false tc kr fuel i a).2 ≤ a + (3 - i) := by
  intro fuel
  induction fuel with
  | zero =>
      intro i a hi
      refine ⟨rfl, ?_⟩
      show a ≤ a + (3 - i)
      omega
  | succ m ih =>
      intro i a hi
      rw [show db_connectGo false tc kr (m + 1) i a =
          (if false = true ∨ i < 3 then
            if tc a = true then (true, a + 1)
            else if kr a = false then (false, a + 1)
            else db_connectGo false tc kr m (i + 1) (a + 1)
          else (false, a)) from rfl]
      by_cases hlt : i < 3
      · rw [if_pos (Or.inr hlt), htc a]
        simp only [Bool.false_eq_true, if_false]
        by_cases hkr : kr a = false
        · rw [if_pos hkr]
          exact ⟨rfl, by omega⟩
        · rw [if_neg hkr]
          have h2 := ih (i + 1) (a + 1) (by omega)
          exact ⟨h2.1, by omega⟩
      · rw [if_neg (by simp [hlt])]
        exact ⟨rfl, by omega⟩

lemma dirParam_dirAct {d : Char} {a : Arg} {p : Param} {args2 : List Arg}
    (h : dirParam d a = some p) :
    dirAct d (a :: args2) = (DirAct.bound p, args2) := by
  unfold dirParam at h
  by_cases h1 : d = 'u'
  · subst h1; cases a <;> simp_all [dirAct]
  · rw [if_neg h1] at h
    by_cases h2 : d = 'U'
    · subst h2; cases a <;> simp_all [dirAct]
    · rw [if_neg h2] at h
      by_cases h3 : d = 'S'
      · subst h3; cases a <;> simp_all [dirAct]
      · rw [if_neg h3] at h
        by_cases h4 : d = 'a'
        · subst h4; cases a <;> simp_all [dirAct]
        · rw [if_neg h4] at h
          by_cases h5 : d = 'b'
          · subst h5; cases a <;> simp_all [dirAct]
          · rw [if_neg h5] at h
            exact absurd h (by simp)

lemma dirInline_dirAct {d : Char} {a : Arg} {s : List Char} {args2 : List Arg}
    (h : dirInline d a = some s) :
    dirAct d (a :: args2) = (DirAct.inl s, args2) := by
  unfold dirInline at h
  by_cases h1 : d = 's'
  · subst h1; cases a <;> simp_all [dirAct]
  · rw [if_neg h1] at h
    by_cases h2 : d = 't'
    · subst h2; cases a <;> simp_all [dirAct]
    · rw [if_neg h2] at h
      exact absurd h (by simp)

lemma specCompile_unfold_dir (d : Char) (rest2 : List Char) (a : Arg)
    (args2 : List Arg) (v : Nat) :
    specCompile ('%' :: d :: rest2) (a :: args2) v =
      (if v < DB_MAX_PARAMS then
        match dirParam d a with
        | some p => (specCompile rest2 args2 (v + 1)).map
            (fun r => (placeholder (v + 1) ++ r.1, p :: r.2))
        | none =>
          match dirInline d a with
          | some s => (specCompile rest2 args2 v).map
              (fun r => (s ++ r.1, r.2))
          | none => none
      else none) := rfl

lemma specCompile_dir_param {d : Char} {a : Arg} {p : Param}
    (rest2 : List Char) (args2 : List Arg) {v : Nat}
    (hdp : dirParam d a = some p) (hv : v < DB_MAX_PARAMS) :
    specCompile ('%' :: d :: rest2) (a :: args2) v =
      (specCompile rest2 args2 (v + 1)).map
        (fun r => (placeholder (v + 1) ++ r.1, p :: r.2)) := by
  rw [specCompile_unfold_dir, if_pos hv, hdp]

lemma specCompile_dir_inl {d : Char} {a : Arg} {s : List Char}
    (rest2 : List Char) (args2 : List Arg) {v : Nat}
    (hdp : dirParam d a = none) (hdi : dirInline d a = some s)
    (hv : v < DB_MAX_PARAMS) :
    specCompile ('%' :: d :: rest2) (a :: args2) v =
      (specCompile rest2 args2 v).map (fun r => (s ++ r.1, r.2)) := by
  rw [specCompile_unfold_dir, if_pos hv, hdp, hdi]

lemma specCompile_dir_none {d : Char} {a : Arg}
    (rest2 : List Char) (args2 : List Arg) {v : Nat}
    (hdp : dirParam d a = none) (hdi : dirInline d a = none) :
    specCompile ('%' :: d :: rest2) (a :: args2) v = none := by
  rw [specCompile_unfold_dir, hdp, hdi, ite_self]

lemma specCompile_dir_full {d : Char} {a : Arg}
    (rest2 : List Char) (args2 : List Arg) {v : Nat}
    (hv : ¬ v < DB_MAX_PARAMS) :
    specCompile ('%' :: d :: rest2) (a :: args2) v = none := by
  rw [specCompile_unfold_dir, if_neg hv]

lemma specCompile_lit {c : Char} (rest : List Char) (args : List Arg)
    (v : Nat) (hc : ¬ (c = '%')) :
    specCompile (c :: rest) args v =
      (specCompile rest args v).map (fun r => (c :: r.1, r.2)) := by
  rw [specCompile.eq_def]
  simp only [if_neg hc]

lemma compileLoop_sim_nil {qcap : Nat} {args : List Arg} {v : Nat}
    {sql : List Char} {nps : List Param} {q : List Char} {ps : List Param}
    (hspec : specCompile [] args v = some (sql, nps))
    (hcap : q.length + sql.length < qcap) :
    compileLoop qcap [] args q ps v false =
      some ⟨true, q ++ sql, ps ++ nps, v + nps.length, false⟩ := by
  simp only [specCompile] at hspec
  split at hspec
  · next hargs =>
      subst hargs
      obtain ⟨rfl, rfl⟩ : sql = [] ∧ nps = [] := by
        have h2 := hspec
        simp only [Option.some.injEq, Prod.mk.injEq] at h2
        exact ⟨h2.1.symm, h2.2.symm⟩
      rw [compileLoop_nil]
      simp only [List.append_nil, List.length_nil, Nat.add_zero,
        Bool.false_or]
      rw [decide_eq_false (by omega : ¬ qcap ≤ q.length)]
  · exact absurd hspec (by simp)

lemma compileLoop_sim (qcap : Nat) :
    ∀ (fuel : Nat) (txt : List Char) (args : List Arg) (v : Nat)
      (sql : List Char) (nps : List Param) (q : List Char) (ps : List Param),
      txt.length ≤ fuel →
      specCompile txt args v = some (sql, nps) →
      q.length + sql.length < qcap →
      compileLoop qcap txt args q ps v false =
        some ⟨true, q ++ sql, ps ++ nps, v + nps.length, false⟩ := by
  intro fuel
  induction fuel with
  | zero =>
      intro txt args v sql nps q ps hlen hspec hcap
      have htxt : txt = [] := List.eq_nil_of_length_eq_zero (Nat.le_zero.mp hlen)
      subst htxt
      exact compileLoop_sim_nil hspec hcap
  | succ m ih =>
      intro txt args v sql nps q ps hlen hspec hcap
      cases txt with
      | nil => exact compileLoop_sim_nil hspec hcap
      | cons c rest =>
          by_cases hc : c = '%'
          · subst hc
            cases rest with
            | nil =>
                rw [show specCompile ['%'] args v = none from rfl] at hspec
                exact absurd hspec (by simp)
            | cons d rest2 =>
                cases args with
                | nil =>
                    rw [show specCompile ('%' :: d :: rest2) [] v = none
                      from rfl] at hspec
                    exact absurd hspec (by simp)
                | cons a args2 =>
                    by_cases hv : v < DB_MAX_PARAMS
                    · cases hdp : dirParam d a with
                      | some p =>
                          rw [specCompile_dir_param rest2 args2 hdp hv]
                            at hspec
                          simp only [Option.map_eq_some'] at hspec
                          obtain ⟨⟨t2, ps2⟩, hrec, heq⟩ := hspec
                          simp only [Prod.mk.injEq] at heq
                          obtain ⟨hsql, hnps⟩ := heq
                          subst hsql
                          subst hnps
                          have hpl : q.length +
                              (placeholder (v + 1)).length < qcap := by
                            simp only [List.length_append] at hcap
                            omega
                          have hlen2 : rest2.length ≤ m := by
                            simp only [List.length_cons] at hlen
                            omega
                          have hcap2 : (q ++ placeholder (v + 1)).length +
                              t2.length < qcap := by
                            simp only [List.length_append] at hcap ⊢
                            omega
                          rw [compileLoop_bound_step (dirParam_dirAct hdp)
                            hv hpl]
                          rw [ih rest2 args2 (v + 1) t2 ps2
                            (q ++ placeholder (v + 1)) (ps ++ [p])
                            hlen2 hrec hcap2]
                          simp only [Option.some.injEq, CompileRes.mk.injEq,
                            List.append_assoc, List.singleton_append,
                            List.length_cons, true_and, and_true]
                          omega
                      | none =>
                          cases hdi : dirInline d a with
                          | some s =>
                              rw [specCompile_dir_inl rest2 args2 hdp hdi hv]
                                at hspec
                              simp only [Option.map_eq_some'] at hspec
                              obtain ⟨⟨t2, ps2⟩, hrec, heq⟩ := hspec
                              simp only [Prod.mk.injEq] at heq
                              obtain ⟨hsql, hnps⟩ := heq
                              subst hsql
                              subst hnps
                              have hsl : q.length + s.length < qcap := by
                                simp only [List.length_append] at hcap
                                omega
                              have hlen2 : rest2.length ≤ m := by
                                simp only [List.length_cons] at hlen
                                omega
                              have hcap2 : (q ++ s).length + t2.length <
                                  qcap := by
                                simp only [List.length_append] at hcap ⊢
                                omega
                              rw [compileLoop_inl_step (dirInline_dirAct hdi)
                                hv hsl]
                              rw [ih rest2 args2 v t2 ps2 (q ++ s) ps
                                hlen2 hrec hcap2]
                              simp only [List.append_assoc]
                          | none =>
                              rw [specCompile_dir_none rest2 args2 hdp hdi]
                                at hspec
                              exact absurd hspec (by simp)
                    · rw [specCompile_dir_full rest2 args2 hv] at hspec
                      exact absurd hspec (by simp)
          · rw [specCompile_lit rest args v hc] at hspec
            simp only [Option.map_eq_some'] at hspec
            obtain ⟨⟨t2, ps2⟩, hrec, heq⟩ := hspec
            simp only [Prod.mk.injEq] at heq
            obtain ⟨hsql, hnps⟩ := heq
            subst hsql
            subst hnps
            have hoob : (false || decide (qcap ≤ q.length)) = false := by
              rw [Bool.false_or]
              refine decide_eq_false ?_
              simp only [List.length_cons] at hcap
              omega
            have hlen2 : rest.length ≤ m := by
              simp only [List.length_cons] at hlen
              omega
            have hcap2 : (q ++ [c]).length + t2.length < qcap := by
              simp only [List.length_append, List.length_cons,
                List.length_nil] at hcap ⊢
              omega
            rw [compileLoop_lit hc, hoob]
            rw [ih rest args v t2 ps2 (q ++ [c]) ps hlen2 hrec hcap2]
            simp only [List.append_assoc, List.singleton_append]

lemma compileLoop_copy_run (qcap : Nat) :
    ∀ (lits rest : List Char) (args : List Arg) (q : List Char)
      (ps : List Param) (v : Nat),
      (∀ c ∈ lits, ¬ (c = '%')) → q.length + lits.length ≤ qcap →
      compileLoop qcap (lits ++ rest) args q ps v false =
        compileLoop qcap rest args (q ++ lits) ps v false := by
  intro lits
  induction lits with
  | nil =>
      intro rest args q ps v _ _
      simp
  | cons c cs ih =>
      intro rest args q ps v hl hcap
      have hc : ¬ (c = '%') := hl c (by simp)
      have hoob : (false || decide (qcap ≤ q.length)) = false := by
        rw [Bool.false_or]
        refine decide_eq_false ?_
        simp only [List.length_cons] at hcap
        omega
      rw [List.cons_append, compileLoop_lit hc, hoob]
      rw [ih rest args (q ++ [c]) ps v (fun x hx => hl x (by simp [hx]))
        (by simp only [List.length_append, List.length_cons,
          List.length_nil, List.length_cons] at hcap ⊢; omega)]
      simp [List.append_assoc]

lemma compileLoop_S_step {qcap : Nat} {rest : List Char} {args : List Arg}
    {q : List Char} {ps : List Param} {v : Nat} {s : String}
    (hv : v < DB_MAX_PARAMS)
    (hcap : q.length + (placeholder (v + 1)).length < qcap) :
    compileLoop qcap ('%' :: 'S' :: rest) (Arg.aStr s :: args) q ps v false =
      compileLoop qcap rest args (q ++ placeholder (v + 1))
        (ps ++ [⟨Oid.TEXTOID, PVal.str s, 0, 0⟩]) (v + 1) false :=
  compileLoop_bound_step rfl hv hcap

/-! Claim theorems. -/

/-- C2: the claim states that copying a literal character or the final
null when the scratch buffer is full aborts compilation with CompileError
rather than writing out of bounds.  The source has no capacity check on
either store: on a buffer of capacity qcap, a template of qcap + 1 literal
characters writes past the end (oob = true) and compilation still reports
success (ok = true), and already a template of exactly qcap literal
characters makes the terminating null store land out of bounds.  This
refutes the claim and exhibits the code bug. -/
theorem c2_literal_copy_writes_out_of_bounds :
    ∀ qcap : Nat,
      db_compile qcap (List.replicate (qcap + 1) 'A') [] =
        some ⟨true, List.replicate (qcap + 1) 'A', [], 0, true⟩ ∧
      db_compile qcap (List.replicate qcap 'A') [] =
        some ⟨true, List.replicate qcap 'A', [], 0, true⟩ := by
  intro qcap
  unfold db_compile
  rw [compileLoop_lit_run, compileLoop_lit_run]
  constructor <;> simp

/-- C1: the claim states that a template with more than DB_MAX_PARAMS
bound directives makes db_query return CompileError and never send a
truncated statement.  In the source the overflow check logs and breaks out
of the scan without setting rep to DB_R_ERR, so on a template of 17 bound
directives compilation reports ok with the statement truncated to the
first 16 placeholders, and db_query proceeds to send it: one send happens
and the call returns DB_R_OK.  This refutes the claim and exhibits the
code bug. -/
theorem c1_param_overflow_truncates_and_executes :
    db_compile 256 c1txt c1args = some ⟨true, c1sql, c1params, 16, false⟩ ∧
    db_query 256 false true false c1txt c1args tcTrue krTrue 3 sendOk =
      some ⟨ExitKind.loopDone, DbReply.DB_R_OK, 1, true, true, 0,
            c1sql, c1params, 16, false⟩ := by
  have hc : db_compile 256 c1txt c1args =
      some ⟨true, c1sql, c1params, 16, false⟩ := by
    unfold db_compile
    simp only [c1txt, c1args, List.replicate_succ, List.replicate_zero,
      List.flatten_cons, List.flatten_nil, List.cons_append, List.nil_append]
    iterate 16 rw [compileLoop_u_step (by decide) (by decide)]
    rw [compileLoop_break (by decide)]
    decide
  refine ⟨hc, ?_⟩
  simp only [db_query, hc, Bool.false_eq_true, if_false]
  decide

/-- C3: calling db_query while the result passed in still holds a live
result is rejected before anything else happens: the source logs and
aborts (surfaced per the spec as the ProtocolViolation outcome,
abortReused here), no send happens, and no template is compiled (the sql
and parameter fields stay empty). -/
theorem c3_reused_result_rejected_before_compile :
    ∀ (qcap : Nat) (conn0 kt : Bool) (txt : List Char) (args : List Arg)
      (tc kr : Nat → Bool) (cfuel : Nat) (send : Nat → ExecOutcome),
      db_query qcap true conn0 kt txt args tc kr cfuel send =
        some ⟨ExitKind.abortReused, DbReply.DB_R_ERR, 0, true, conn0, 0,
              [], [], 0, false⟩ := by
  intro qcap conn0 kt txt args tc kr cfuel send
  rfl

/-- C10: db_query_finish releases the mutex unconditionally, and clears
the scratch buffer and nulls the result handle exactly when the result
argument is non-null and live; on a null or already finished result the
buffer is left unchanged while the lock is still released.  The three
cases of the result argument are enumerated. -/
theorem c10_finish_unlocks_always_clears_only_live :
    ∀ (q : List Char) (l : Bool),
      db_query_finish q l (some true) = ([], false, some false) ∧
      db_query_finish q l none = (q, false, none) ∧
      db_query_finish q l (some false) = (q, false, some false) := by
  intro q l
  exact ⟨rfl, rfl, rfl⟩

/-- C8: decoding an INT8OID cell with db_result_get_uint32 succeeds and
yields the low 32 bits of the big-endian value of the cell, and decoding
an INT4OID cell with db_result_get_uint64 succeeds and yields the value
zero-extended (it is below 2 ^ 32); the matching-width decodes are
included for reference. -/
theorem c8_cross_width_int_decoding :
    ∀ (r : DbResult) (row col : Nat) (d : List Nat),
      r.getval row col = some d →
      (r.ftype col = Oid.INT8OID → d.length = 8 →
        db_result_get_uint32 r row col =
          some (true, some (beNat d % 2 ^ 32)) ∧
        db_result_get_uint64 r row col = some (true, some (beNat d))) ∧
      (r.ftype col = Oid.INT4OID → d.length = 4 →
        db_result_get_uint64 r row col = some (true, some (beNat d)) ∧
        beNat d < 2 ^ 32 ∧
        db_result_get_uint32 r row col = some (true, some (beNat d))) := by
  intro r row col d hget
  constructor
  · intro ht hlen
    have htake : d.take 8 = d := List.take_of_length_le (by omega)
    constructor <;>
      simp [db_result_get_uint32, db_result_get_uint64, hget, ht, hlen, htake]
  · intro ht hlen
    have htake : d.take 4 = d := List.take_of_length_le (by omega)
    have hlt : beNat d < 2 ^ 32 := by
      have h := beNat_lt d
      rw [hlen] at h
      norm_num at h
      omega
    refine ⟨?_, hlt, ?_⟩ <;>
      simp [db_result_get_uint32, db_result_get_uint64, hget, ht, hlen, htake]

/-- Witness for C8 at concrete results: an INT8OID cell holding 7 read
through the 32 bit accessor and an INT4OID cell holding 7 read through the
64 bit accessor. -/
theorem c8_cross_width_int_decoding_witness :
    db_result_get_uint32 R8 0 0 =
      some (true, some (beNat [0, 0, 0, 0, 0, 0, 0, 7] % 2 ^ 32)) ∧
    db_result_get_uint64 R4 0 0 = some (true, some (beNat [0, 0, 0, 7])) :=
  ⟨((c8_cross_width_int_decoding R8 0 0 _ rfl).1 rfl rfl).1,
   ((c8_cross_width_int_decoding R4 0 0 _ rfl).2 rfl rfl).1⟩

/-- C9: an accessor applied to a column whose reported type does not match
returns false and never hands back a value reinterpreted from the cell:
db_result_get_string fails unless the type is TEXTOID or VARCHAROID (the
out pointer is left untouched or set to NULL, never to the cell bytes),
and db_result_get_bool fails unless the type is BOOLOID (the out value is
left untouched or set to false, never read from the cell). -/
theorem c9_type_mismatch_is_decode_error :
    ∀ (r : DbResult) (row col : Nat),
      (r.ftype col ≠ Oid.TEXTOID → r.ftype col ≠ Oid.VARCHAROID →
        db_result_get_string r row col = (false, none) ∨
        db_result_get_string r row col = (false, some none)) ∧
      (r.ftype col ≠ Oid.BOOLOID →
        db_result_get_bool r row col = some (false, none) ∨
        db_result_get_bool r row col = some (false, some false)) := by
  intro r row col
  constructor
  · intro h1 h2
    unfold db_result_get_string
    cases hget : r.getval row col with
    | none => left; rfl
    | some d =>
        right
        cases hft : r.ftype col <;> simp_all
  · intro h1
    unfold db_result_get_bool
    cases hget : r.getval row col with
    | none => left; rfl
    | some d =>
        right
        cases hft : r.ftype col <;> simp_all

/-- Witness for C9: an INT4OID column probed with the string accessor and
with the bool accessor. -/
theorem c9_type_mismatch_is_decode_error_witness :
    (db_result_get_string Rm 0 0 = (false, none) ∨
     db_result_get_string Rm 0 0 = (false, some none)) ∧
    (db_result_get_bool Rm 0 0 = some (false, none) ∨
     db_result_get_bool Rm 0 0 = some (false, some false)) :=
  ⟨(c9_type_mismatch_is_decode_error Rm 0 0).1 (by decide) (by decide),
   (c9_type_mismatch_is_decode_error Rm 0 0).2 (by decide)⟩
/-- C5: when PQexecParams produces no result object, db_query closes and
clears the connection, flags DB_R_ERR, nulls result.res and retries the
loop (first conjunct, one step of the loop); end to end, a first send with
no result followed by a successful resend returns DB_R_OK after exactly
one reconnect and 2 total sends, and a second transport failure exhausts
the loop and returns DB_R_ERR (QueryError) after 2 total sends. -/
theorem c5_transport_failure_one_retry :
    ∀ (qcap : Nat) (txt : List Char) (args : List Arg) (c : CompileRes)
      (kt : Bool) (tc kr : Nat → Bool) (cfuel : Nat)
      (send : Nat → ExecOutcome) (est : PGStatus) (r : Option String),
      db_compile qcap txt args = some c → c.ok = true →
      send 0 = ExecOutcome.noResult →
      ((∀ (n : Nat) (st : LoopSt), st.conn = true →
          send st.sends = ExecOutcome.noResult →
          queryLoop kt tc kr cfuel send (n + 1) st =
            queryLoop kt tc kr cfuel send n
              ⟨false, st.cAtt, st.sends + 1, false, DbReply.DB_R_ERR⟩) ∧
       (send 1 = ExecOutcome.result est r →
        (est = PGStatus.PGRES_COMMAND_OK ∨ est = PGStatus.PGRES_TUPLES_OK) →
        db_query qcap false true kt txt args tcTrue kr 3 send =
          some ⟨ExitKind.loopDone, DbReply.DB_R_OK, 2, true, true, 1,
                c.sql, c.params, c.nParams, c.oob⟩) ∧
       (send 1 = ExecOutcome.noResult →
        db_query qcap false true kt txt args tcTrue kr 3 send =
          some ⟨ExitKind.loopDone, DbReply.DB_R_ERR, 2, false, false, 1,
                c.sql, c.params, c.nParams, c.oob⟩)) := by
  intro qcap txt args c kt tc kr cfuel send est r hc hok hs0
  have hdb : db_connect kt tcTrue kr 3 0 = (true, 1) :=
    db_connect_first_try rfl
  refine ⟨?_, ?_, ?_⟩
  · intro n st hconn hsend
    exact queryLoop_succ_conn_noResult hconn hsend
  · intro hs1 hest
    have h1 : queryLoop kt tcTrue kr 3 send 2 ⟨true, 0, 0, false,
        DbReply.DB_R_OK⟩ = (ExitKind.loopDone,
          ⟨true, 1, 2, true, DbReply.DB_R_OK⟩) := by
      rw [queryLoop_succ_conn_noResult rfl hs0,
        queryLoop_succ_reconnect rfl hdb,
        queryLoop_succ_conn_result rfl hs1 hest]
    simp only [db_query, hc, Bool.false_eq_true, if_false, hok,
      Bool.true_eq_false, h1]
    rfl
  · intro hs1
    have h1 : queryLoop kt tcTrue kr 3 send 2 ⟨true, 0, 0, false,
        DbReply.DB_R_OK⟩ = (ExitKind.loopDone,
          ⟨false, 1, 2, false, DbReply.DB_R_ERR⟩) := by
      rw [queryLoop_succ_conn_noResult rfl hs0,
        queryLoop_succ_reconnect rfl hdb,
        queryLoop_succ_conn_noResult rfl hs1, queryLoop_zero]
    simp only [db_query, hc, Bool.false_eq_true, if_false, hok,
      Bool.true_eq_false, h1]
    rfl

/-- C6: when the result status is neither PGRES_COMMAND_OK nor
PGRES_TUPLES_OK, db_query classifies by the SQLSTATE field: the code
ERRCODE_UNIQUE_VIOLATION gives DB_R_DUPLICATE_KEY with exactly one send
(not retried), any other code gives DB_R_ERR with exactly one send (not
retried, even for a fatal status), and the two replies are distinct values
of the same dbreply_t type. -/
theorem c6_sqlstate_classification :
    ∀ (qcap : Nat) (txt : List Char) (args : List Arg) (c : CompileRes)
      (kt : Bool) (tc kr : Nat → Bool) (cfuel : Nat)
      (send : Nat → ExecOutcome) (est : PGStatus) (r : Option String),
      db_compile qcap txt args = some c → c.ok = true →
      send 0 = ExecOutcome.result est r →
      est ≠ PGStatus.PGRES_COMMAND_OK → est ≠ PGStatus.PGRES_TUPLES_OK →
      ((r = some ERRCODE_UNIQUE_VIOLATION →
        db_query qcap false true kt txt args tc kr cfuel send =
          some ⟨ExitKind.loopDone, DbReply.DB_R_DUPLICATE_KEY, 1, true, true,
                0, c.sql, c.params, c.nParams, c.oob⟩) ∧
       (∀ code, r = some code → code ≠ ERRCODE_UNIQUE_VIOLATION →
        db_query qcap false true kt txt args tc kr cfuel send =
          some ⟨ExitKind.loopDone, DbReply.DB_R_ERR, 1, true, true, 0,
                c.sql, c.params, c.nParams, c.oob⟩) ∧
       DbReply.DB_R_DUPLICATE_KEY ≠ DbReply.DB_R_ERR) := by
  intro qcap txt args c kt tc kr cfuel send est r hc hok hs0 hno1 hno2
  refine ⟨?_, ?_, by decide⟩
  · intro hr
    have h1 : queryLoop kt tc kr cfuel send 2 ⟨true, 0, 0, false,
        DbReply.DB_R_OK⟩ = (ExitKind.loopDone,
          ⟨true, 0, 1, true, DbReply.DB_R_DUPLICATE_KEY⟩) := by
      rw [queryLoop_succ_conn_result_stop rfl hs0
        (by simp [hno1, hno2]) (by simp [hr])]
      rw [if_pos hr]
    simp only [db_query, hc, Bool.false_eq_true, if_false, hok,
      Bool.true_eq_false, h1]
    rfl
  · intro code hr hne
    have h1 : queryLoop kt tc kr cfuel send 2 ⟨true, 0, 0, false,
        DbReply.DB_R_OK⟩ = (ExitKind.loopDone,
          ⟨true, 0, 1, true, DbReply.DB_R_ERR⟩) := by
      rw [queryLoop_succ_conn_result_stop rfl hs0
        (by simp [hno1, hno2]) (by simp [hr])]
      rw [if_neg (by simp [hr, hne])]
    simp only [db_query, hc, Bool.false_eq_true, if_false, hok,
      Bool.true_eq_false, h1]
    rfl

/-- C7: with keeptrying unset and every PQconnectdb attempt failing, the
db_connect loop performs at most 3 attempts and terminates, and db_query
on a disconnected handle then returns DB_R_ERR through the No-connection
exit (ConnectionError) with zero sends. -/
theorem c7_connect_bounded_then_connection_error :
    ∀ (tc kr : Nat → Bool) (cfuel qcap : Nat) (txt : List Char)
      (args : List Arg) (c : CompileRes) (send : Nat → ExecOutcome),
      (∀ k, tc k = false) → 3 ≤ cfuel →
      ((db_connect false tc kr cfuel 0).1 = false ∧
       (db_connect false tc kr cfuel 0).2 ≤ 3) ∧
      (db_compile qcap txt args = some c → c.ok = true →
        db_query qcap false false false txt args tc kr cfuel send =
          some ⟨ExitKind.noConnection, DbReply.DB_R_ERR, 0, false, false,
                (db_connect false tc kr cfuel 0).2,
                c.sql, c.params, c.nParams, c.oob⟩) := by
  intro tc kr cfuel qcap txt args c send htc _hcf
  have hfail : (db_connect false tc kr cfuel 0).1 = false ∧
      (db_connect false tc kr cfuel 0).2 ≤ 0 + (3 - 0) :=
    db_connectGo_allFail tc kr htc cfuel 0 0 (by omega)
  have hbound : (db_connect false tc kr cfuel 0).2 ≤ 3 := by
    have h2 := hfail.2
    omega
  refine ⟨⟨hfail.1, hbound⟩, ?_⟩
  intro hc hok
  have hdb : db_connect false tc kr cfuel 0 =
      (false, (db_connect false tc kr cfuel 0).2) := by
    conv_lhs => rw [← Prod.mk.eta (p := db_connect false tc kr cfuel 0)]
    rw [hfail.1]
  have h1 : queryLoop false tc kr cfuel send 2 ⟨false, 0, 0, false,
      DbReply.DB_R_OK⟩ = (ExitKind.noConnection,
        ⟨false, (db_connect false tc kr cfuel 0).2, 0, false,
         DbReply.DB_R_OK⟩) :=
    queryLoop_succ_noconn rfl hdb
  simp only [db_query, hc, Bool.false_eq_true, if_false, hok,
    Bool.true_eq_false, h1, if_pos rfl, if_true]

/-- Witness for C5 at concrete inputs: the compiled text SELECT 1 with a
send oracle failing once then succeeding, and one failing twice. -/
theorem c5_transport_failure_one_retry_witness :
    db_query 64 false true false cSel [] tcTrue krTrue 3 sendFailOk =
      some ⟨ExitKind.loopDone, DbReply.DB_R_OK, 2, true, true, 1,
            cSel, [], 0, false⟩ ∧
    db_query 64 false true false cSel [] tcTrue krTrue 3 sendFail =
      some ⟨ExitKind.loopDone, DbReply.DB_R_ERR, 2, false, false, 1,
            cSel, [], 0, false⟩ := by
  constructor
  · exact (c5_transport_failure_one_retry 64 cSel [] cSelRes false tcTrue
      krTrue 3 sendFailOk PGStatus.PGRES_TUPLES_OK none (by decide) rfl
      rfl).2.1 rfl (Or.inr rfl)
  · exact (c5_transport_failure_one_retry 64 cSel [] cSelRes false tcTrue
      krTrue 3 sendFail PGStatus.PGRES_OTHER none (by decide) rfl
      rfl).2.2 rfl

/-- Witness for C6 at concrete inputs: a unique-violation SQLSTATE and a
syntax-error SQLSTATE on the same compiled text. -/
theorem c6_sqlstate_classification_witness :
    db_query 64 false true false cSel [] tcTrue krTrue 3 sendDup =
      some ⟨ExitKind.loopDone, DbReply.DB_R_DUPLICATE_KEY, 1, true, true, 0,
            cSel, [], 0, false⟩ ∧
    db_query 64 false true false cSel [] tcTrue krTrue 3 sendSyn =
      some ⟨ExitKind.loopDone, DbReply.DB_R_ERR, 1, true, true, 0,
            cSel, [], 0, false⟩ := by
  constructor
  · exact (c6_sqlstate_classification 64 cSel [] cSelRes false tcTrue krTrue
      3 sendDup PGStatus.PGRES_FATAL_ERROR (some "23505") (by decide) rfl
      rfl (by decide) (by decide)).1 rfl
  · exact (c6_sqlstate_classification 64 cSel [] cSelRes false tcTrue krTrue
      3 sendSyn PGStatus.PGRES_OTHER (some "42601") (by decide) rfl
      rfl (by decide) (by decide)).2.1 "42601" rfl (by decide)

/-- Witness for C7 at concrete inputs: an always-failing connect oracle
with fuel 3. -/
theorem c7_connect_bounded_then_connection_error_witness :
    ((db_connect false tcFalse krTrue 3 0).1 = false ∧
     (db_connect false tcFalse krTrue 3 0).2 ≤ 3) ∧
    db_query 64 false false false cSel [] tcFalse krTrue 3 sendOk =
      some ⟨ExitKind.noConnection, DbReply.DB_R_ERR, 0, false, false, 3,
            cSel, [], 0, false⟩ := by
  have h := c7_connect_bounded_then_connection_error tcFalse krTrue 3 64
    cSel [] cSelRes sendOk (fun _ => rfl) (by omega)
  exact ⟨h.1, h.2 (by decide) rfl⟩

/-- C4: compilation refined against the spec rendering.  General part:
whenever the spec-side rendering specCompile succeeds on a template and
argument list (well-formed directives, matching arguments, the
DB_MAX_PARAMS bound respected at each directive) and the rendered text is
under the buffer bound, db_query compilation succeeds with exactly that
text (the i-th bound directive replaced by the i-th positional
placeholder) and exactly that parameter list, in directive order, with no
out-of-bounds write.  Scenario part: the spec template compiles to the
expected SQL with parameter 1 the big-endian 4-byte binary Int32 encoding
of 7 and parameter 2 the text alice. -/
theorem c4_compile_placeholders_and_params :
    (∀ (qcap : Nat) (txt : List Char) (args : List Arg) (sql : List Char)
       (nps : List Param),
      specCompile txt args 0 = some (sql, nps) → sql.length < qcap →
      db_compile qcap txt args = some ⟨true, sql, nps, nps.length, false⟩) ∧
    db_compile 1024 c4txt c4args =
      some ⟨true, c4sql, [c4p1, c4p2], 2, false⟩ := by
  constructor
  · intro qcap txt args sql nps hspec hcap
    have h := compileLoop_sim qcap txt.length txt args 0 sql nps [] []
      (Nat.le_refl _) hspec (by simpa using hcap)
    simpa using h
  · have hsplit : c4txt = "SELECT id FROM t WHERE gw=".data ++
        ('%' :: 'u' :: (" AND name=".data ++ ('%' :: 'S' :: []))) := by
      decide
    unfold db_compile
    rw [hsplit, show c4args = Arg.aU32 7 :: Arg.aStr "alice" :: [] from rfl]
    rw [compileLoop_copy_run 1024 _ _ _ _ _ _ (by decide) (by decide)]
    rw [compileLoop_u_step (by decide) (by decide)]
    rw [compileLoop_copy_run 1024 _ _ _ _ _ _ (by decide) (by decide)]
    rw [compileLoop_S_step (by decide) (by decide)]
    rw [compileLoop_nil]
    decide

/-- Witness for C4 applying the general part at a concrete input: one
32 bit directive with argument 7. -/
theorem c4_compile_placeholders_and_params_witness :
    db_compile 16 ['%', 'u'] [Arg.aU32 7] =
      some ⟨true, placeholder 1,
            [⟨Oid.INT4OID, PVal.bin (u32be 7), 4, 1⟩], 1, false⟩ :=
  c4_compile_placeholders_and_params.1 16 ['%', 'u'] [Arg.aU32 7]
    (placeholder 1) [⟨Oid.INT4OID, PVal.bin (u32be 7), 4, 1⟩]
    (by decide) (by decide)
